import Mathlib

/-!
Formalization of the TwitchAuth sign-in module (`Source/TwitchAuth/Public/TwitchAuthActor.h`).

The repository ships only the header; enums, the user struct, the configuration
constants and all signatures below are taken from it.  The bodies of the member
functions are not part of the repository snapshot, so each behavioural
definition is modelled from the design document (see the individual doc
comments), faithful to its wording.
-/

/-- All needed HTTP verbs (`EHttpVerb`, TwitchAuthActor.h). -/
inductive EHttpVerb where
  | Get
  | Post
  | Put
  | Patch
  | Delete
deriving DecidableEq

/-- All possible endpoints (`EEndpoint`, TwitchAuthActor.h). -/
inductive EEndpoint where
  | None
  | User
  | Channels
  | Subscriptions
deriving DecidableEq

/-- The signed-in Twitch user (`FTwitchUser`, TwitchAuthActor.h).  The default
constructor leaves every `FString` field empty. -/
structure FTwitchUser where
  _id : String := ""
  logo : String := ""
  display_name : String := ""
  name : String := ""
  bio : String := ""
  email : String := ""
deriving DecidableEq

/-- Base API URL (`m_ApiBaseUrl`, TwitchAuthActor.h). -/
def m_ApiBaseUrl : String := "https://api.twitch.tv/kraken"

/-- User endpoint path (`m_UserEndpoint`, TwitchAuthActor.h). -/
def m_UserEndpoint : String := "/user"

/-- Access-token key marker (`AccessTokenKey`, TwitchAuthActor.h). -/
def AccessTokenKey : String := "access_token="

/-- Redirect-origin recognizer string (`AccessTokenUriContainsStr`, TwitchAuthActor.h). -/
def AccessTokenUriContainsStr : String := "https://localhost/#access_token"

/-- Boolean string-prefix test, written out on character lists so that it is
structurally recursive and kernel-evaluable. -/
def startsWithStr (pre s : String) : Bool :=
  pre.toList.isPrefixOf s.toList

/-- Keep the characters of a token value up to the next delimiter, `&` or
end-of-string (design document 4.4). -/
def cutToken (l : List Char) : List Char :=
  l.takeWhile (fun c => c ≠ '&')

/-- Return the suffix following the first occurrence of `m` in the list, or
`none` when `m` does not occur. -/
def findAfterMarker (m : List Char) : List Char → Option (List Char)
  | [] => none
  | c :: cs =>
    if m.isPrefixOf (c :: cs) then some ((c :: cs).drop m.length)
    else findAfterMarker m cs

/-- Modelled from the spec: `ATwitchAuthActor::GetAccessToken` (declared at
TwitchAuthActor.h:245, body not in the snapshot).  Design document 4.4: on
capture, "extract the substring following the token-key marker
(`access_token=`) up to the next delimiter (`&` or end-of-string)"; when the
marker with a value is absent "extraction must fail explicitly (empty/invalid
token)" — the `RedirectParseError` branch is `none`. -/
def GetAccessToken (RedirectUri : String) : Option String :=
  match findAfterMarker AccessTokenKey.toList RedirectUri.toList with
  | none => none
  | some rest =>
    if cutToken rest = [] then none else some (String.mk (cutToken rest))

/-- A parsed JSON value.  The engine's `FJsonSerializer` hands the decoder a
value of this shape; a body that is not valid JSON is represented as the
absence of such a value. -/
inductive Json where
  | jstr (s : String)
  | jnum (n : Int)
  | jbool (b : Bool)
  | jnull
  | jobj (fields : List (String × Json))
  | jarr (elems : List Json)

/-- First JSON field bound to a key in an object's field list. -/
def lookupField : List (String × Json) → String → Option Json
  | [], _ => none
  | (k, v) :: rest, key => if k = key then some v else lookupField rest key

/-- String value of a JSON field: the bound string if the key maps to a JSON
string, and the `FString` default (empty) otherwise. -/
def jsonFieldStr (fields : List (String × Json)) (key : String) : String :=
  match lookupField fields key with
  | some (Json.jstr s) => s
  | _ => ""

/-- Modelled from the spec: `GetStructFromJsonString<FTwitchUser>` (declared at
TwitchAuthActor.h:158-159, body not in the snapshot).  Design document 4.3:
"maps fields onto a target record by name; unknown fields are ignored; missing
fields take the record's zero/default value"; malformed JSON (no parsed value,
or not an object) is a decode error, here `none`. -/
def GetStructFromJson : Json → Option FTwitchUser
  | Json.jobj fields =>
    some { _id := jsonFieldStr fields "_id"
           logo := jsonFieldStr fields "logo"
           display_name := jsonFieldStr fields "display_name"
           name := jsonFieldStr fields "name"
           bio := jsonFieldStr fields "bio"
           email := jsonFieldStr fields "email" }
  | _ => none

/-- An HTTP response as seen by the actor: status code and (parsed) body.
`body = none` models a body that is not valid JSON. -/
structure FHttpResponse where
  responseCode : Int
  body : Option Json

/-- Modelled from the spec: `ATwitchAuthActor::IsResponseValid` (declared at
TwitchAuthActor.h:144, body not in the snapshot).  Design document 4.3:
"false if the transport failed, if `response` is absent, or if the HTTP status
code is outside [200,299]". -/
def IsResponseValid (Response : Option FHttpResponse) (bWasSuccessful : Bool) : Bool :=
  match Response with
  | none => false
  | some r =>
    bWasSuccessful && (decide (200 ≤ r.responseCode) && decide (r.responseCode ≤ 299))

/-- An outbound HTTP request.  Per design document 3, the logical endpoint tag
is carried on the request itself so the shared response callback can correlate
without global state. -/
structure FHttpRequest where
  url : String
  verb : String
  headers : List (String × String)
  endpointTag : EEndpoint
deriving DecidableEq

/-- Modelled from the spec: `ATwitchAuthActor::GetHttpVerbStr` (declared at
TwitchAuthActor.h:136, body not in the snapshot): the verb string for each
`EHttpVerb` value. -/
def GetHttpVerbStr : EHttpVerb → String
  | EHttpVerb.Get => "GET"
  | EHttpVerb.Post => "POST"
  | EHttpVerb.Put => "PUT"
  | EHttpVerb.Patch => "PATCH"
  | EHttpVerb.Delete => "DELETE"

/-- Modelled from the spec: `ATwitchAuthActor::CreateHttpRequest` (declared at
TwitchAuthActor.h:129, body not in the snapshot).  Design document 4.2: URL is
the fixed base URL plus the resolved endpoint path, method from the verb, an
`Authorization: OAuth <token>` header when a bearer token is present, the
version `Accept` header unconditionally; construction sends nothing (the model
is a pure function producing a request value, no transport effect). -/
def CreateHttpRequest (accessToken : Option String) (tag : EEndpoint)
    (Endpoint : String) (Verb : EHttpVerb) : FHttpRequest :=
  { url := m_ApiBaseUrl ++ Endpoint
    verb := GetHttpVerbStr Verb
    headers :=
      (match accessToken with
        | some tok => [("Authorization", "OAuth " ++ tok)]
        | none => []) ++ [("Accept", "application/vnd.twitchtv.v5+json")]
    endpointTag := tag }

/-- Modelled from the spec: the Endpoint Registry's `resolvePath` (design
document 4.1; the header records only the `/user` path, `m_UserEndpoint`).
The `None` sentinel is made unconstructible as an argument by taking the
subtype of endpoints different from `EEndpoint.None`. -/
def resolvePath : {e : EEndpoint // e ≠ EEndpoint.None} → String
  | ⟨EEndpoint.User, _⟩ => m_UserEndpoint
  | ⟨EEndpoint.Channels, _⟩ => "/channels"
  | ⟨EEndpoint.Subscriptions, _⟩ => "/subscriptions"
  | ⟨EEndpoint.None, h⟩ => absurd rfl h

/-- States of the Redirect URI Watcher (design document 4.4). -/
inductive EWatcherState where
  | Watching
  | Captured
deriving DecidableEq

/-- Modelled from the spec: the redirect-watcher step embedded in
`ATwitchAuthActor::HandleOnUrlChanged` (declared at TwitchAuthActor.h:269, body
not in the snapshot).  Design document 4.4: `Watching -> Captured` fires
exactly when the URL starts with the redirect-origin prefix
(`AccessTokenUriContainsStr`); all other events produce no state change; once
`Captured` the watcher is inert. -/
def watcherStep (s : EWatcherState) (url : String) : EWatcherState :=
  match s with
  | EWatcherState.Watching =>
    if startsWithStr AccessTokenUriContainsStr url then EWatcherState.Captured
    else EWatcherState.Watching
  | EWatcherState.Captured => EWatcherState.Captured

/-- The watcher fed a whole navigation sequence. -/
def runWatcher (s : EWatcherState) (urls : List String) : EWatcherState :=
  urls.foldl watcherStep s

/-- States of the Sign-In Orchestrator (design document 4.5). -/
inductive OrchState where
  | Idle
  | AwaitingRedirect
  | FetchingProfile
  | SignedIn
  | Errored
deriving DecidableEq

/-- The mutable state of `ATwitchAuthActor`: the configuration properties
(`ClientID`, `ForceVerify`), the orchestrator phase, and the private fields
`m_AccessToken`, `m_TwitchUser` and `m_LastEndpoint` from TwitchAuthActor.h. -/
structure ActorState where
  ClientID : String
  ForceVerify : Bool
  state : OrchState
  m_AccessToken : String
  m_TwitchUser : FTwitchUser
  m_LastEndpoint : EEndpoint
deriving DecidableEq

/-- The actor as spawned: `ForceVerify = true` (TwitchAuthActor.h:78),
`m_LastEndpoint = EEndpoint::None` (TwitchAuthActor.h:186), default-constructed
user and empty token, idle orchestrator. -/
def initialActorState (clientID : String) : ActorState :=
  { ClientID := clientID
    ForceVerify := true
    state := OrchState.Idle
    m_AccessToken := ""
    m_TwitchUser := {}
    m_LastEndpoint := EEndpoint.None }

/-- Observable effects the actor asks of its collaborators (design document 6):
render the authorization page, dismiss it, send an HTTP request, or fire the
`OnUserSignedIn` notification (TwitchAuthActor.h:108-110). -/
inductive Effect where
  | renderAuthUrl (url : String)
  | dismissAuthUrl
  | sendRequest (req : FHttpRequest)
  | onUserSignedIn
deriving DecidableEq

/-- Number of `OnUserSignedIn` notifications in an effect trace. -/
def countSignedInNotifications : List Effect → Nat
  | [] => 0
  | Effect.onUserSignedIn :: rest => countSignedInNotifications rest + 1
  | _ :: rest => countSignedInNotifications rest

/-- Modelled from the spec: `ATwitchAuthActor::GetTwitchSigninUrl` (declared at
TwitchAuthActor.h:238, body not in the snapshot).  Design document 6 gives the
authorization URL shape. -/
def GetTwitchSigninUrl (s : ActorState) : String :=
  m_ApiBaseUrl ++ "/oauth2/authorize?response_type=token&client_id=" ++ s.ClientID
    ++ "&redirect_uri=https://localhost&force_verify="
    ++ (if s.ForceVerify then "true" else "false")

/-- Modelled from the spec: `ATwitchAuthActor::StartUserSignIn` (declared at
TwitchAuthActor.h:83-84, body not in the snapshot).  Design document 4.5 step
1: compute the authorization URL, ask the UI collaborator to render it, move to
`AwaitingRedirect`. -/
def StartUserSignIn (s : ActorState) : ActorState × List Effect :=
  ({ s with state := OrchState.AwaitingRedirect },
   [Effect.renderAuthUrl (GetTwitchSigninUrl s)])

/-- The authenticated profile request sent on capture: GET to the User
endpoint carrying the captured token (design document 4.5 step 3). -/
def userProfileRequest (accessToken : String) : FHttpRequest :=
  CreateHttpRequest (some accessToken) EEndpoint.User m_UserEndpoint EHttpVerb.Get

/-- Modelled from the spec: `ATwitchAuthActor::HandleOnUrlChanged` (declared at
TwitchAuthActor.h:269, body not in the snapshot).  Design document 4.5 step 2
and 4.4: while awaiting the redirect, a URL starting with the redirect-origin
prefix captures; token extraction success moves to `FetchingProfile`, dismisses
the browser and sends the profile request (`m_LastEndpoint` is also set to
`User`, mirroring TwitchAuthActor.h:186); extraction failure is the
`RedirectParseError` path into `Errored` before any HTTP call (design document
7).  Every other navigation event produces no state change. -/
def HandleOnUrlChanged (s : ActorState) (url : String) : ActorState × List Effect :=
  match s.state with
  | OrchState.AwaitingRedirect =>
    if startsWithStr AccessTokenUriContainsStr url then
      match GetAccessToken url with
      | some tok =>
        ({ s with state := OrchState.FetchingProfile
                  m_AccessToken := tok
                  m_LastEndpoint := EEndpoint.User },
         [Effect.dismissAuthUrl, Effect.sendRequest (userProfileRequest tok)])
      | none =>
        ({ s with state := OrchState.Errored }, [Effect.dismissAuthUrl])
    else (s, [])
  | _ => (s, [])

/-- Modelled from the spec: `ATwitchAuthActor::HandleGetTwitchUserResponse`
(declared at TwitchAuthActor.h:203, body not in the snapshot).  Design document
4.5 step 3: valid and decodable response populates `m_TwitchUser`, moves to
`SignedIn` and fires the notification; invalid response or decode failure moves
to `Errored` with no notification and leaves the user record untouched. -/
def HandleGetTwitchUserResponse (s : ActorState) (Response : Option FHttpResponse)
    (bWasSuccessful : Bool) : ActorState × List Effect :=
  if IsResponseValid Response bWasSuccessful then
    match Response with
    | some r =>
      match r.body with
      | some j =>
        match GetStructFromJson j with
        | some u =>
          ({ s with state := OrchState.SignedIn, m_TwitchUser := u },
           [Effect.onUserSignedIn])
        | none => ({ s with state := OrchState.Errored }, [])
      | none => ({ s with state := OrchState.Errored }, [])
    | none => ({ s with state := OrchState.Errored }, [])
  else ({ s with state := OrchState.Errored }, [])

/-- Modelled from the spec: `ATwitchAuthActor::OnResponseReceived` (declared at
TwitchAuthActor.h:167, body not in the snapshot).  Design document 3: the
shared transport callback identifies the logical endpoint from the completed
request object itself and dispatches; only the User endpoint has a handler in
this flow. -/
def OnResponseReceived (s : ActorState) (Request : FHttpRequest)
    (Response : Option FHttpResponse) (bWasSuccessful : Bool) : ActorState × List Effect :=
  match Request.endpointTag with
  | EEndpoint.User => HandleGetTwitchUserResponse s Response bWasSuccessful
  | _ => (s, [])

/-- Outcome of one profile response: the decoded user when the response is
valid and its body decodes, and `none` (the `Errored` path, no notification)
otherwise.  This only repackages the branch structure of
`HandleGetTwitchUserResponse`; see `HandleGetTwitchUserResponse_eq`. -/
def profileOutcome (Response : Option FHttpResponse) (bWasSuccessful : Bool) :
    Option FTwitchUser :=
  if IsResponseValid Response bWasSuccessful then
    match Response with
    | some r =>
      match r.body with
      | some j => GetStructFromJson j
      | none => none
    | none => none
  else none

/-- `ATwitchAuthActor::GetSignedInTwitchUser` (TwitchAuthActor.h:89-90): the
declared return type is `FTwitchUser` by value, so the query returns a copy of
`m_TwitchUser` and the actor state unchanged. -/
def GetSignedInTwitchUser (s : ActorState) : FTwitchUser × ActorState :=
  (s.m_TwitchUser, s)

/-- Feed a navigation sequence to the actor, collecting effects in order. -/
def feedUrls (s : ActorState) : List String → ActorState × List Effect
  | [] => (s, [])
  | u :: rest =>
    let p1 := HandleOnUrlChanged s u
    let p2 := feedUrls p1.1 rest
    (p2.1, p1.2 ++ p2.2)

/-- One whole sign-in attempt: start from a fresh actor, feed the navigation
sequence, and when a profile request went out deliver the given transport
outcome to the shared callback. -/
def runSignInFlow (clientID : String) (urls : List String)
    (Response : Option FHttpResponse) (bWasSuccessful : Bool) : ActorState × List Effect :=
  let p1 := StartUserSignIn (initialActorState clientID)
  let p2 := feedUrls p1.1 urls
  if p2.1.state = OrchState.FetchingProfile then
    let p3 := OnResponseReceived p2.1 (userProfileRequest p2.1.m_AccessToken)
                Response bWasSuccessful
    (p3.1, p1.2 ++ p2.2 ++ p3.2)
  else (p2.1, p1.2 ++ p2.2)

/-- Actor states reachable from a fresh actor, indexed by how many
`OnUserSignedIn` notifications have fired along the way. -/
inductive Reaches : ActorState → Nat → Prop where
  | init : ∀ clientID, Reaches (initialActorState clientID) 0
  | start : ∀ s n, Reaches s n →
      Reaches (StartUserSignIn s).1 (n + countSignedInNotifications (StartUserSignIn s).2)
  | urlChanged : ∀ s n url, Reaches s n →
      Reaches (HandleOnUrlChanged s url).1
        (n + countSignedInNotifications (HandleOnUrlChanged s url).2)
  | response : ∀ s n req resp ok, Reaches s n →
      Reaches (OnResponseReceived s req resp ok).1
        (n + countSignedInNotifications (OnResponseReceived s req resp ok).2)

example : GetAccessToken "https://localhost/#access_token=abc123&scope=x" = some "abc123" := by decide
example : GetAccessToken "https://localhost/#access_token" = none := by decide
example : GetAccessToken "https://localhost/#access_token=" = none := by decide

lemma isPrefixOf_iff_exists {m l : List Char} :
    m.isPrefixOf l = true ↔ ∃ t, l = m ++ t := by
  induction m generalizing l with
  | nil => simp [List.isPrefixOf]
  | cons a as ih =>
    cases l with
    | nil => simp [List.isPrefixOf]
    | cons b bs =>
      simp only [List.isPrefixOf, Bool.and_eq_true, beq_iff_eq, ih]
      constructor
      · rintro ⟨rfl, t, rfl⟩
        exact ⟨t, rfl⟩
      · rintro ⟨t, h⟩
        injection h with h1 h2
        exact ⟨h1.symm, t, h2⟩

lemma findAfterMarker_some {m : List Char} :
    ∀ {l r : List Char}, findAfterMarker m l = some r → ∃ a, l = a ++ m ++ r := by
  intro l
  induction l with
  | nil => intro r h; simp [findAfterMarker] at h
  | cons c cs ih =>
    intro r h
    by_cases hp : m.isPrefixOf (c :: cs) = true
    · rw [findAfterMarker, if_pos hp] at h
      obtain ⟨t, ht⟩ := isPrefixOf_iff_exists.mp hp
      refine ⟨[], ?_⟩
      have hd : (c :: cs).drop m.length = t := by
        rw [ht, List.drop_left]
      rw [hd] at h
      injection h with h1
      simp [ht, h1]
    · rw [findAfterMarker, if_neg hp] at h
      obtain ⟨a, ha⟩ := ih h
      exact ⟨c :: a, by simp [ha]⟩

lemma findAfterMarker_none {m : List Char} (hm : m ≠ []) :
    ∀ {l : List Char}, findAfterMarker m l = none → ∀ a b, l ≠ a ++ m ++ b := by
  intro l
  induction l with
  | nil =>
    intro _ a b h
    rcases List.append_eq_nil.mp h.symm with ⟨h1, h2⟩
    rcases List.append_eq_nil.mp h1 with ⟨_, h3⟩
    exact hm h3
  | cons c cs ih =>
    intro h a b hab
    by_cases hp : m.isPrefixOf (c :: cs) = true
    · rw [findAfterMarker, if_pos hp] at h
      exact Option.noConfusion h
    · rw [findAfterMarker, if_neg hp] at h
      cases a with
      | nil =>
        apply hp
        exact isPrefixOf_iff_exists.mpr ⟨b, by simpa using hab⟩
      | cons x xs =>
        injection hab with h1 h2
        exact ih h xs b h2

lemma findAfterMarker_first {m : List Char} (hm : m ≠ []) :
    ∀ (a b : List Char),
      (∀ i, i < a.length → ((a ++ m ++ b).drop i).take m.length ≠ m) →
      findAfterMarker m (a ++ m ++ b) = some b := by
  intro a
  induction a with
  | nil =>
    intro b _
    obtain ⟨x, xs, rfl⟩ : ∃ x xs, m = x :: xs := by
      cases m with
      | nil => exact absurd rfl hm
      | cons x xs => exact ⟨x, xs, rfl⟩
    have hgoal : ([] : List Char) ++ (x :: xs) ++ b = x :: (xs ++ b) := by simp
    rw [hgoal]
    have hp : (x :: xs).isPrefixOf (x :: (xs ++ b)) = true :=
      isPrefixOf_iff_exists.mpr ⟨b, by simp⟩
    rw [findAfterMarker, if_pos hp]
    have hd : (x :: (xs ++ b)).drop (x :: xs).length = b := by
      have h2 := List.drop_left (x :: xs) b
      rw [List.cons_append] at h2
      exact h2
    rw [hd]
  | cons x a ih =>
    intro b hfirst
    by_cases hp : m.isPrefixOf ((x :: a) ++ m ++ b) = true
    · exfalso
      obtain ⟨t, ht⟩ := isPrefixOf_iff_exists.mp hp
      apply hfirst 0 (by simp)
      rw [List.drop_zero, ht, List.take_left]
    · have hstep : (x :: a) ++ m ++ b = x :: (a ++ m ++ b) := by simp
      rw [hstep] at hp ⊢
      rw [findAfterMarker, if_neg hp]
      apply ih
      intro i hi
      have := hfirst (i + 1) (by simpa using Nat.succ_lt_succ hi)
      rw [hstep] at this
      simpa using this

lemma noSplit_of_bounded {m l : List Char} (hm : m ≠ [])
    (h : ∀ i, i < l.length → (l.drop i).take m.length ≠ m) :
    ∀ a b, l ≠ a ++ m ++ b := by
  intro a b hab
  have hlen : a.length < l.length := by
    rw [hab]
    simp only [List.length_append]
    have : 0 < m.length := List.length_pos.mpr hm
    omega
  apply h a.length hlen
  rw [hab, List.append_assoc, List.drop_left, List.take_left]

/-- Claim C3: for every redirect URL containing the marker `access_token=`
followed by a value, extraction returns exactly the substring after the marker
up to the next `&` or end-of-string; for every URL in which the marker with a
value is absent, extraction fails explicitly (`none`, the `RedirectParseError`
branch) rather than returning an empty or garbage token. -/
theorem GetAccessToken_raises_iff (url : String) :
    (∀ a b, url.toList = a ++ AccessTokenKey.toList ++ b →
      (∀ i, i < a.length →
        ((url.toList.drop i).take AccessTokenKey.toList.length) ≠ AccessTokenKey.toList) →
      GetAccessToken url =
        (if cutToken b = [] then none else some (String.mk (cutToken b))))
    ∧ ((∀ a b, url.toList ≠ a ++ AccessTokenKey.toList ++ b) → GetAccessToken url = none) := by
  have hm : AccessTokenKey.toList ≠ [] := by decide
  constructor
  · intro a b hsplit hfirst
    rw [hsplit] at hfirst
    have hfind : findAfterMarker AccessTokenKey.toList url.toList = some b := by
      rw [hsplit]
      exact findAfterMarker_first hm a b hfirst
    unfold GetAccessToken
    rw [hfind]
  · intro hno
    have hfind : findAfterMarker AccessTokenKey.toList url.toList = none := by
      cases hf : findAfterMarker AccessTokenKey.toList url.toList with
      | none => rfl
      | some r =>
        obtain ⟨a, ha⟩ := findAfterMarker_some hf
        exact absurd ha (hno a r)
    unfold GetAccessToken
    rw [hfind]

/-- Concrete instance of `GetAccessToken_raises_iff`: the token is cut out of a
real redirect URL, and a redirect URL without `=value` after the marker makes
extraction fail. -/
theorem GetAccessToken_raises_iff_witness :
    GetAccessToken "https://localhost/#access_token=abc123&scope=x" = some "abc123"
    ∧ GetAccessToken "https://localhost/#access_token" = none := by
  constructor
  · have h := (GetAccessToken_raises_iff "https://localhost/#access_token=abc123&scope=x").1
      "https://localhost/#".toList "abc123&scope=x".toList (by decide) (by decide)
    rw [h]
    decide
  · exact (GetAccessToken_raises_iff "https://localhost/#access_token").2
      (noSplit_of_bounded (by decide) (by decide))

/-- Claim C4: the `Watching -> Captured` transition fires exactly when the URL
starts with the redirect-origin prefix; over any navigation sequence in which
no URL starts with that prefix, the watcher never leaves `Watching`. -/
theorem watcher_trigger_condition :
    (∀ url, watcherStep EWatcherState.Watching url = EWatcherState.Captured ↔
        startsWithStr AccessTokenUriContainsStr url = true)
    ∧ (∀ urls, (∀ u, u ∈ urls → startsWithStr AccessTokenUriContainsStr u = false) →
        runWatcher EWatcherState.Watching urls = EWatcherState.Watching) := by
  constructor
  · intro url
    cases hb : startsWithStr AccessTokenUriContainsStr url with
    | false => simp [watcherStep, hb]
    | true => simp [watcherStep, hb]
  · intro urls
    induction urls with
    | nil => intro _; rfl
    | cons u rest ih =>
      intro h
      have hu : startsWithStr AccessTokenUriContainsStr u = false := h u (by simp)
      have hstep : watcherStep EWatcherState.Watching u = EWatcherState.Watching := by
        simp [watcherStep, hu]
      show runWatcher (watcherStep EWatcherState.Watching u) rest = EWatcherState.Watching
      rw [hstep]
      exact ih (fun v hv => h v (List.mem_cons_of_mem _ hv))

/-- Concrete instance of `watcher_trigger_condition`: the two pre-redirect
navigation events of the documented flow leave the watcher in `Watching`, and
the redirect URL itself captures. -/
theorem watcher_trigger_condition_witness :
    runWatcher EWatcherState.Watching
        ["about:blank", "https://api.twitch.tv/kraken/oauth2/authorize"]
      = EWatcherState.Watching
    ∧ watcherStep EWatcherState.Watching "https://localhost/#access_token=tok1"
      = EWatcherState.Captured := by
  constructor
  · exact watcher_trigger_condition.2
      ["about:blank", "https://api.twitch.tv/kraken/oauth2/authorize"] (by decide)
  · exact (watcher_trigger_condition.1 "https://localhost/#access_token=tok1").mpr (by decide)

/-- Claim C5: `IsResponseValid` returns true exactly when the transport
succeeded, a response is present, and the status code lies in [200,299]. -/
theorem IsResponseValid_iff (Response : Option FHttpResponse) (bWasSuccessful : Bool) :
    IsResponseValid Response bWasSuccessful = true ↔
      (bWasSuccessful = true
        ∧ ∃ r, Response = some r ∧ 200 ≤ r.responseCode ∧ r.responseCode ≤ 299) := by
  cases Response with
  | none => simp [IsResponseValid]
  | some r =>
    simp [IsResponseValid, Bool.and_eq_true, decide_eq_true_eq, and_assoc]

/-- Concrete instances of `IsResponseValid_iff`: 200 with transport success is
valid; 403, transport failure and an absent response are not. -/
theorem IsResponseValid_iff_witness :
    IsResponseValid (some ⟨200, none⟩) true = true
    ∧ IsResponseValid (some ⟨403, none⟩) true = false
    ∧ IsResponseValid (some ⟨200, none⟩) false = false
    ∧ IsResponseValid none true = false :=
  ⟨(IsResponseValid_iff (some ⟨200, none⟩) true).mpr
      ⟨rfl, ⟨200, none⟩, rfl, by decide, by decide⟩,
   by decide, by decide, by decide⟩

lemma lookupField_append_ne (fields : List (String × Json)) (k : String) (v : Json)
    (key : String) (h : k ≠ key) :
    lookupField (fields ++ [(k, v)]) key = lookupField fields key := by
  induction fields with
  | nil => simp [lookupField, h]
  | cons p rest ih =>
    obtain ⟨k2, v2⟩ := p
    by_cases hk : k2 = key
    · simp [lookupField, hk]
    · simp [lookupField, hk, ih]

lemma jsonFieldStr_append_ne (fields : List (String × Json)) (k : String) (v : Json)
    (key : String) (h : k ≠ key) :
    jsonFieldStr (fields ++ [(k, v)]) key = jsonFieldStr fields key := by
  unfold jsonFieldStr
  rw [lookupField_append_ne fields k v key h]

lemma jsonFieldStr_of_none {fields : List (String × Json)} {key : String}
    (h : lookupField fields key = none) : jsonFieldStr fields key = "" := by
  simp [jsonFieldStr, h]

lemma jsonFieldStr_of_str {fields : List (String × Json)} {key s : String}
    (h : lookupField fields key = some (Json.jstr s)) : jsonFieldStr fields key = s := by
  simp [jsonFieldStr, h]

/-- Claim C6: decoding a JSON object never fails, maps fields by name, ignores
unknown fields, and gives missing fields the record's default (empty string). -/
theorem GetStructFromJson_permissive :
    (∀ fields, ∃ u, GetStructFromJson (Json.jobj fields) = some u)
    ∧ (∀ fields k v,
        k ≠ "_id" → k ≠ "logo" → k ≠ "display_name" → k ≠ "name" → k ≠ "bio" → k ≠ "email" →
        GetStructFromJson (Json.jobj (fields ++ [(k, v)])) = GetStructFromJson (Json.jobj fields))
    ∧ (∀ fields u, GetStructFromJson (Json.jobj fields) = some u →
        (lookupField fields "name" = none → u.name = "")
        ∧ (lookupField fields "bio" = none → u.bio = "")
        ∧ (lookupField fields "email" = none → u.email = "")
        ∧ (∀ s, lookupField fields "display_name" = some (Json.jstr s) → u.display_name = s)
        ∧ (∀ s, lookupField fields "_id" = some (Json.jstr s) → u._id = s)) := by
  refine ⟨fun fields => ⟨_, rfl⟩, ?_, ?_⟩
  · intro fields k v h1 h2 h3 h4 h5 h6
    simp only [GetStructFromJson,
      jsonFieldStr_append_ne fields k v _ h1,
      jsonFieldStr_append_ne fields k v _ h2,
      jsonFieldStr_append_ne fields k v _ h3,
      jsonFieldStr_append_ne fields k v _ h4,
      jsonFieldStr_append_ne fields k v _ h5,
      jsonFieldStr_append_ne fields k v _ h6]
  · intro fields u hu
    simp only [GetStructFromJson, Option.some.injEq] at hu
    subst hu
    exact ⟨fun h => jsonFieldStr_of_none h,
           fun h => jsonFieldStr_of_none h,
           fun h => jsonFieldStr_of_none h,
           fun s h => jsonFieldStr_of_str h,
           fun s h => jsonFieldStr_of_str h⟩

/-- Concrete instance of `GetStructFromJson_permissive`: the documented example
object decodes, `display_name` and `_id` are mapped, and the absent `name`,
`bio` and `email` fields take the empty default. -/
theorem GetStructFromJson_permissive_witness :
    ∃ u, GetStructFromJson
        (Json.jobj [("_id", Json.jstr "1"), ("display_name", Json.jstr "Foo")]) = some u
      ∧ u.display_name = "Foo" ∧ u.name = "" ∧ u.bio = "" ∧ u.email = "" ∧ u._id = "1" := by
  obtain ⟨u, hu⟩ := GetStructFromJson_permissive.1
    [("_id", Json.jstr "1"), ("display_name", Json.jstr "Foo")]
  have h3 := GetStructFromJson_permissive.2.2 _ u hu
  exact ⟨u, hu, h3.2.2.2.1 "Foo" rfl, h3.1 rfl, h3.2.1 rfl, h3.2.2.1 rfl,
         h3.2.2.2.2 "1" rfl⟩

lemma not_bearer_oauth (tok : String) :
    startsWithStr "Bearer" ("OAuth " ++ tok) = false := by
  unfold startsWithStr
  have h : ("OAuth " ++ tok).toList = "OAuth ".toList ++ tok.toList :=
    String.data_append "OAuth " tok
  rw [h]
  rfl

/-- Claim C7: the built request's URL is the fixed base URL plus the endpoint
path, its method comes from the verb, a present bearer token is carried as
`Authorization: OAuth <token>` (and no header value uses the standard `Bearer`
scheme), and the version `Accept` header is set unconditionally. -/
theorem CreateHttpRequest_spec (accessToken : Option String) (tag : EEndpoint)
    (Endpoint : String) (Verb : EHttpVerb) :
    (CreateHttpRequest accessToken tag Endpoint Verb).url = m_ApiBaseUrl ++ Endpoint
    ∧ (CreateHttpRequest accessToken tag Endpoint Verb).verb = GetHttpVerbStr Verb
    ∧ (∀ tok, accessToken = some tok →
        ("Authorization", "OAuth " ++ tok)
          ∈ (CreateHttpRequest accessToken tag Endpoint Verb).headers)
    ∧ ("Accept", "application/vnd.twitchtv.v5+json")
        ∈ (CreateHttpRequest accessToken tag Endpoint Verb).headers
    ∧ (∀ k v, (k, v) ∈ (CreateHttpRequest accessToken tag Endpoint Verb).headers →
        startsWithStr "Bearer" v = false) := by
  cases accessToken with
  | none =>
    refine ⟨rfl, rfl, ?_, ?_, ?_⟩
    · intro tok h
      exact Option.noConfusion h
    · simp [CreateHttpRequest]
    · intro k v hmem
      simp only [CreateHttpRequest, List.nil_append, List.mem_singleton, Prod.mk.injEq] at hmem
      rw [hmem.2]
      decide
  | some tok =>
    refine ⟨rfl, rfl, ?_, ?_, ?_⟩
    · intro tok2 h
      injection h with h
      subst h
      simp [CreateHttpRequest]
    · simp [CreateHttpRequest]
    · intro k v hmem
      simp only [CreateHttpRequest, List.cons_append, List.nil_append,
        List.mem_cons, List.mem_singleton, Prod.mk.injEq] at hmem
      rcases hmem with ⟨_, hv⟩ | ⟨_, hv⟩ | hmem
      · rw [hv]
        exact not_bearer_oauth tok
      · rw [hv]
        decide
      · exact absurd hmem (List.not_mem_nil _)

/-- Concrete instance of `CreateHttpRequest_spec`: the profile GET request hits
the full user URL and carries the legacy OAuth authorization header. -/
theorem CreateHttpRequest_spec_witness :
    (CreateHttpRequest (some "tok1") EEndpoint.User m_UserEndpoint EHttpVerb.Get).url
      = "https://api.twitch.tv/kraken/user"
    ∧ ("Authorization", "OAuth tok1")
        ∈ (CreateHttpRequest (some "tok1") EEndpoint.User m_UserEndpoint EHttpVerb.Get).headers := by
  constructor
  · rw [(CreateHttpRequest_spec (some "tok1") EEndpoint.User m_UserEndpoint EHttpVerb.Get).1]
    decide
  · have h := (CreateHttpRequest_spec (some "tok1") EEndpoint.User m_UserEndpoint
      EHttpVerb.Get).2.2.1 "tok1" rfl
    exact h

/-- Claim C8: endpoint path resolution is a pure total function over `User`,
`Channels` and `Subscriptions`, and the `None` sentinel is rejected at the
type level: `resolvePath` takes the subtype excluding `None`, so no argument
with value `None` exists and no runtime failure branch is reachable. -/
theorem resolvePath_total :
    (∀ x : {e : EEndpoint // e ≠ EEndpoint.None},
        x.val = EEndpoint.User ∨ x.val = EEndpoint.Channels ∨ x.val = EEndpoint.Subscriptions)
    ∧ (∀ x y : {e : EEndpoint // e ≠ EEndpoint.None}, x.val = y.val →
        resolvePath x = resolvePath y)
    ∧ (∀ h : EEndpoint.User ≠ EEndpoint.None, resolvePath ⟨EEndpoint.User, h⟩ = m_UserEndpoint) := by
  refine ⟨?_, ?_, ?_⟩
  · rintro ⟨e, he⟩
    cases e with
    | None => exact absurd rfl he
    | User => exact Or.inl rfl
    | Channels => exact Or.inr (Or.inl rfl)
    | Subscriptions => exact Or.inr (Or.inr rfl)
  · intro x y h
    exact congrArg resolvePath (Subtype.ext h)
  · intro h
    rfl

/-- Concrete instance of `resolvePath_total`: the user endpoint resolves to the
`/user` path recorded in the header. -/
theorem resolvePath_total_witness :
    resolvePath ⟨EEndpoint.User, by decide⟩ = m_UserEndpoint :=
  resolvePath_total.2.2 (by decide)

lemma HandleGetTwitchUserResponse_eq (s : ActorState) (Response : Option FHttpResponse)
    (ok : Bool) :
    HandleGetTwitchUserResponse s Response ok =
      match profileOutcome Response ok with
      | some u => ({ s with state := OrchState.SignedIn, m_TwitchUser := u },
                   [Effect.onUserSignedIn])
      | none => ({ s with state := OrchState.Errored }, []) := by
  unfold HandleGetTwitchUserResponse profileOutcome
  cases Response with
  | none => rfl
  | some r =>
    obtain ⟨code, body⟩ := r
    by_cases hv : IsResponseValid (some ⟨code, body⟩) ok = true
    · rw [if_pos hv, if_pos hv]
      cases body with
      | none => rfl
      | some j =>
        cases GetStructFromJson j with
        | none => rfl
        | some u => rfl
    · rw [if_neg hv, if_neg hv]

/-- Claim C9: the endpoint the shared response callback dispatches on is
determined solely by the completed request object; two runs with the same
request and response but different values of the `m_LastEndpoint` field
produce the same effects, the same resulting phase, and the same user
record. -/
theorem OnResponseReceived_ignores_lastEndpoint (s : ActorState) (le1 le2 : EEndpoint)
    (Request : FHttpRequest) (Response : Option FHttpResponse) (bWasSuccessful : Bool) :
    (OnResponseReceived { s with m_LastEndpoint := le1 } Request Response bWasSuccessful).2
      = (OnResponseReceived { s with m_LastEndpoint := le2 } Request Response bWasSuccessful).2
    ∧ (OnResponseReceived { s with m_LastEndpoint := le1 } Request Response bWasSuccessful).1.state
      = (OnResponseReceived { s with m_LastEndpoint := le2 } Request Response bWasSuccessful).1.state
    ∧ (OnResponseReceived { s with m_LastEndpoint := le1 } Request Response bWasSuccessful).1.m_TwitchUser
      = (OnResponseReceived { s with m_LastEndpoint := le2 } Request Response bWasSuccessful).1.m_TwitchUser := by
  obtain ⟨u2, vb, hd2, tag⟩ := Request
  cases tag with
  | User =>
    simp only [OnResponseReceived]
    rw [HandleGetTwitchUserResponse_eq, HandleGetTwitchUserResponse_eq]
    cases profileOutcome Response bWasSuccessful with
    | none => exact ⟨rfl, rfl, rfl⟩
    | some u => exact ⟨rfl, rfl, rfl⟩
  | None => exact ⟨rfl, rfl, rfl⟩
  | Channels => exact ⟨rfl, rfl, rfl⟩
  | Subscriptions => exact ⟨rfl, rfl, rfl⟩

/-- Concrete instance of `OnResponseReceived_ignores_lastEndpoint`: delivering
the same completed profile request to actors whose `m_LastEndpoint` fields
disagree (`None` vs `User`) produces identical effects. -/
theorem OnResponseReceived_ignores_lastEndpoint_witness :
    (OnResponseReceived { initialActorState "cid" with m_LastEndpoint := EEndpoint.None }
        (userProfileRequest "t") (some ⟨200, some (Json.jobj [])⟩) true).2
      = (OnResponseReceived { initialActorState "cid" with m_LastEndpoint := EEndpoint.User }
          (userProfileRequest "t") (some ⟨200, some (Json.jobj [])⟩) true).2 :=
  (OnResponseReceived_ignores_lastEndpoint (initialActorState "cid") EEndpoint.None
    EEndpoint.User (userProfileRequest "t") (some ⟨200, some (Json.jobj [])⟩) true).1

lemma HandleOnUrlChanged_no_match (s : ActorState) (url : String)
    (h : startsWithStr AccessTokenUriContainsStr url = false) :
    HandleOnUrlChanged s url = (s, []) := by
  obtain ⟨cid, fv, st, atok, tu, le⟩ := s
  cases st <;> simp [HandleOnUrlChanged, h]

lemma HandleOnUrlChanged_capture (s : ActorState) (url : String) (tok : String)
    (hs : s.state = OrchState.AwaitingRedirect)
    (hmatch : startsWithStr AccessTokenUriContainsStr url = true)
    (htok : GetAccessToken url = some tok) :
    HandleOnUrlChanged s url
      = ({ s with state := OrchState.FetchingProfile
                  m_AccessToken := tok
                  m_LastEndpoint := EEndpoint.User },
         [Effect.dismissAuthUrl, Effect.sendRequest (userProfileRequest tok)]) := by
  obtain ⟨cid, fv, st, atok, tu, le⟩ := s
  simp only at hs
  subst hs
  simp [HandleOnUrlChanged, hmatch, htok]

lemma feedUrls_no_capture (s : ActorState) :
    ∀ urls, (∀ v, v ∈ urls → startsWithStr AccessTokenUriContainsStr v = false) →
      feedUrls s urls = (s, []) := by
  intro urls
  induction urls generalizing s with
  | nil => intro _; rfl
  | cons u rest ih =>
    intro h
    have hu : startsWithStr AccessTokenUriContainsStr u = false := h u (by simp)
    simp only [feedUrls, HandleOnUrlChanged_no_match s u hu]
    rw [ih s (fun v hv => h v (List.mem_cons_of_mem _ hv))]
    rfl

lemma feedUrls_append (s : ActorState) (us vs : List String) :
    feedUrls s (us ++ vs)
      = ((feedUrls (feedUrls s us).1 vs).1,
         (feedUrls s us).2 ++ (feedUrls (feedUrls s us).1 vs).2) := by
  induction us generalizing s with
  | nil => simp [feedUrls]
  | cons u rest ih =>
    have hc : (u :: rest) ++ vs = u :: (rest ++ vs) := rfl
    rw [hc]
    simp only [feedUrls]
    rw [ih (HandleOnUrlChanged s u).1]
    simp [List.append_assoc]

lemma feedUrls_capture (s : ActorState)
    (hs : s.state = OrchState.AwaitingRedirect)
    (urls : List String) (finalUrl : String) (tok : String)
    (hurls : ∀ v, v ∈ urls → startsWithStr AccessTokenUriContainsStr v = false)
    (hfinal : startsWithStr AccessTokenUriContainsStr finalUrl = true)
    (htok : GetAccessToken finalUrl = some tok) :
    feedUrls s (urls ++ [finalUrl])
      = ({ s with state := OrchState.FetchingProfile
                  m_AccessToken := tok
                  m_LastEndpoint := EEndpoint.User },
         [Effect.dismissAuthUrl, Effect.sendRequest (userProfileRequest tok)]) := by
  rw [feedUrls_append, feedUrls_no_capture s urls hurls]
  simp only [feedUrls, HandleOnUrlChanged_capture s finalUrl tok hs hfinal htok]
  rfl

lemma profileOutcome_some (code : Int) (body : Json) (u : FTwitchUser)
    (h200 : 200 ≤ code) (h299 : code ≤ 299)
    (hdecode : GetStructFromJson body = some u) :
    profileOutcome (some ⟨code, some body⟩) true = some u := by
  have hv : IsResponseValid (some ⟨code, some body⟩) true = true := by
    simp [IsResponseValid, h200, h299]
  simp [profileOutcome, hv, hdecode]

lemma profileOutcome_none (Response : Option FHttpResponse) (ok : Bool)
    (hbad : IsResponseValid Response ok = false
        ∨ (∃ r, Response = some r ∧ (r.body = none
            ∨ ∃ j, r.body = some j ∧ GetStructFromJson j = none))) :
    profileOutcome Response ok = none := by
  rcases hbad with hv | ⟨r, rfl, hb⟩
  · simp [profileOutcome, hv]
  · by_cases hv : IsResponseValid (some r) ok = true
    · obtain ⟨code, body⟩ := r
      rcases hb with hb | ⟨j, hb, hd⟩
      · simp only at hb
        subst hb
        simp [profileOutcome, hv]
      · simp only at hb
        subst hb
        simp [profileOutcome, hv, hd]
    · simp [profileOutcome, hv]

/-- Claim C1: a sign-in attempt whose navigation sequence ends in a redirect
URL carrying an access token, and whose profile request completes with a 2xx
status and a decodable JSON body, reaches `SignedIn`, fires the
`OnUserSignedIn` notification exactly once over the whole flow, and leaves
`GetSignedInTwitchUser` returning the decoded record. -/
theorem signin_success_flow (clientID : String) (urls : List String) (finalUrl : String)
    (tok : String) (code : Int) (body : Json) (u : FTwitchUser)
    (hurls : ∀ v, v ∈ urls → startsWithStr AccessTokenUriContainsStr v = false)
    (hfinal : startsWithStr AccessTokenUriContainsStr finalUrl = true)
    (htok : GetAccessToken finalUrl = some tok)
    (h200 : 200 ≤ code) (h299 : code ≤ 299)
    (hdecode : GetStructFromJson body = some u) :
    (runSignInFlow clientID (urls ++ [finalUrl]) (some ⟨code, some body⟩) true).1.state
      = OrchState.SignedIn
    ∧ countSignedInNotifications
        (runSignInFlow clientID (urls ++ [finalUrl]) (some ⟨code, some body⟩) true).2 = 1
    ∧ (GetSignedInTwitchUser
        (runSignInFlow clientID (urls ++ [finalUrl]) (some ⟨code, some body⟩) true).1).1 = u := by
  have hfeed := feedUrls_capture (StartUserSignIn (initialActorState clientID)).1 rfl
    urls finalUrl tok hurls hfinal htok
  have houtcome := profileOutcome_some code body u h200 h299 hdecode
  simp only [runSignInFlow, hfeed]
  simp only [OnResponseReceived, userProfileRequest, CreateHttpRequest]
  rw [HandleGetTwitchUserResponse_eq]
  rw [houtcome]
  exact ⟨rfl, rfl, rfl⟩

/-- Concrete instance of `signin_success_flow`: the documented navigation
sequence with a 200 response and the example JSON body ends signed in with one
notification and the decoded user. -/
theorem signin_success_flow_witness :
    (runSignInFlow "cid"
        ["about:blank", "https://api.twitch.tv/kraken/oauth2/authorize",
         "https://localhost/#access_token=tok1"]
        (some ⟨200, some (Json.jobj [("_id", Json.jstr "1"), ("display_name", Json.jstr "Foo")])⟩)
        true).1.state = OrchState.SignedIn
    ∧ countSignedInNotifications
        (runSignInFlow "cid"
          ["about:blank", "https://api.twitch.tv/kraken/oauth2/authorize",
           "https://localhost/#access_token=tok1"]
          (some ⟨200, some (Json.jobj [("_id", Json.jstr "1"), ("display_name", Json.jstr "Foo")])⟩)
          true).2 = 1
    ∧ (GetSignedInTwitchUser
        (runSignInFlow "cid"
          ["about:blank", "https://api.twitch.tv/kraken/oauth2/authorize",
           "https://localhost/#access_token=tok1"]
          (some ⟨200, some (Json.jobj [("_id", Json.jstr "1"), ("display_name", Json.jstr "Foo")])⟩)
          true).1).1 = { _id := "1", display_name := "Foo" } := by
  have h := signin_success_flow "cid"
    ["about:blank", "https://api.twitch.tv/kraken/oauth2/authorize"]
    "https://localhost/#access_token=tok1" "tok1" 200
    (Json.jobj [("_id", Json.jstr "1"), ("display_name", Json.jstr "Foo")])
    { _id := "1", display_name := "Foo" }
    (by decide) (by decide) (by decide) (by decide) (by decide) rfl
  exact h

/-- Claim C2: a sign-in attempt whose profile response is invalid (transport
failure, absent response, or non-2xx status) or whose body fails to decode
ends in `Errored`, fires no notification, and leaves `GetSignedInTwitchUser`
returning the pre-attempt (empty) record. -/
theorem signin_failure_atomicity (clientID : String) (urls : List String) (finalUrl : String)
    (tok : String) (Response : Option FHttpResponse) (bWasSuccessful : Bool)
    (hurls : ∀ v, v ∈ urls → startsWithStr AccessTokenUriContainsStr v = false)
    (hfinal : startsWithStr AccessTokenUriContainsStr finalUrl = true)
    (htok : GetAccessToken finalUrl = some tok)
    (hbad : IsResponseValid Response bWasSuccessful = false
        ∨ (∃ r, Response = some r ∧ (r.body = none
            ∨ ∃ j, r.body = some j ∧ GetStructFromJson j = none))) :
    (runSignInFlow clientID (urls ++ [finalUrl]) Response bWasSuccessful).1.state
      = OrchState.Errored
    ∧ countSignedInNotifications
        (runSignInFlow clientID (urls ++ [finalUrl]) Response bWasSuccessful).2 = 0
    ∧ (GetSignedInTwitchUser
        (runSignInFlow clientID (urls ++ [finalUrl]) Response bWasSuccessful).1).1
      = (initialActorState clientID).m_TwitchUser := by
  have hfeed := feedUrls_capture (StartUserSignIn (initialActorState clientID)).1 rfl
    urls finalUrl tok hurls hfinal htok
  have houtcome := profileOutcome_none Response bWasSuccessful hbad
  simp only [runSignInFlow, hfeed]
  simp only [OnResponseReceived, userProfileRequest, CreateHttpRequest]
  rw [HandleGetTwitchUserResponse_eq]
  rw [houtcome]
  exact ⟨rfl, rfl, rfl⟩

/-- Concrete instance of `signin_failure_atomicity`: the documented navigation
sequence with an HTTP 403 response ends in `Errored`, with no notification and
the empty pre-attempt record. -/
theorem signin_failure_atomicity_witness :
    (runSignInFlow "cid"
        ["about:blank", "https://api.twitch.tv/kraken/oauth2/authorize",
         "https://localhost/#access_token=tok1"]
        (some ⟨403, some (Json.jobj [("_id", Json.jstr "1")])⟩) true).1.state
      = OrchState.Errored
    ∧ countSignedInNotifications
        (runSignInFlow "cid"
          ["about:blank", "https://api.twitch.tv/kraken/oauth2/authorize",
           "https://localhost/#access_token=tok1"]
          (some ⟨403, some (Json.jobj [("_id", Json.jstr "1")])⟩) true).2 = 0
    ∧ (GetSignedInTwitchUser
        (runSignInFlow "cid"
          ["about:blank", "https://api.twitch.tv/kraken/oauth2/authorize",
           "https://localhost/#access_token=tok1"]
          (some ⟨403, some (Json.jobj [("_id", Json.jstr "1")])⟩) true).1).1
      = (initialActorState "cid").m_TwitchUser := by
  have h := signin_failure_atomicity "cid"
    ["about:blank", "https://api.twitch.tv/kraken/oauth2/authorize"]
    "https://localhost/#access_token=tok1" "tok1"
    (some ⟨403, some (Json.jobj [("_id", Json.jstr "1")])⟩) true
    (by decide) (by decide) (by decide) (Or.inl (by decide))
  exact h

lemma HandleOnUrlChanged_preserves (s : ActorState) (url : String) :
    (HandleOnUrlChanged s url).1.m_TwitchUser = s.m_TwitchUser
    ∧ countSignedInNotifications (HandleOnUrlChanged s url).2 = 0 := by
  obtain ⟨cid, fv, st, atok, tu, le⟩ := s
  cases st with
  | AwaitingRedirect =>
    cases hb : startsWithStr AccessTokenUriContainsStr url with
    | false => simp [HandleOnUrlChanged, hb, countSignedInNotifications]
    | true =>
      cases htok : GetAccessToken url with
      | none => simp [HandleOnUrlChanged, hb, htok, countSignedInNotifications]
      | some tok => simp [HandleOnUrlChanged, hb, htok, countSignedInNotifications]
  | Idle => exact ⟨rfl, rfl⟩
  | FetchingProfile => exact ⟨rfl, rfl⟩
  | SignedIn => exact ⟨rfl, rfl⟩
  | Errored => exact ⟨rfl, rfl⟩

lemma OnResponseReceived_no_notif (s : ActorState) (req : FHttpRequest)
    (resp : Option FHttpResponse) (ok : Bool)
    (h : countSignedInNotifications (OnResponseReceived s req resp ok).2 = 0) :
    (OnResponseReceived s req resp ok).1.m_TwitchUser = s.m_TwitchUser := by
  obtain ⟨u2, vb, hd2, tag⟩ := req
  cases tag with
  | User =>
    simp only [OnResponseReceived] at h ⊢
    rw [HandleGetTwitchUserResponse_eq] at h ⊢
    cases hp : profileOutcome resp ok with
    | none => rfl
    | some u =>
      rw [hp] at h
      simp [countSignedInNotifications] at h
  | None => rfl
  | Channels => rfl
  | Subscriptions => rfl

/-- Claim C10: `GetSignedInTwitchUser` is a pure query: in every reachable
actor state it returns the actor unchanged together with a by-value copy of
the stored user record, and before any successful sign-in (no notification has
fired) that copy is the default-constructed record with every field empty. -/
theorem GetSignedInTwitchUser_pure (s : ActorState) (n : Nat) (h : Reaches s n) :
    (GetSignedInTwitchUser s).2 = s
    ∧ (GetSignedInTwitchUser s).1 = s.m_TwitchUser
    ∧ (n = 0 → (GetSignedInTwitchUser s).1 = ({} : FTwitchUser)) := by
  refine ⟨rfl, rfl, ?_⟩
  induction h with
  | init cid => intro _; rfl
  | start s n hr ih =>
    intro hn
    have hc : countSignedInNotifications (StartUserSignIn s).2 = 0 := rfl
    rw [hc] at hn
    exact ih hn
  | urlChanged s n url hr ih =>
    intro hn
    have hp := HandleOnUrlChanged_preserves s url
    rw [hp.2] at hn
    show (HandleOnUrlChanged s url).1.m_TwitchUser = ({} : FTwitchUser)
    rw [hp.1]
    exact ih (by omega)
  | response s n req resp ok hr ih =>
    intro hn
    have hc : countSignedInNotifications (OnResponseReceived s req resp ok).2 = 0 := by omega
    show (OnResponseReceived s req resp ok).1.m_TwitchUser = ({} : FTwitchUser)
    rw [OnResponseReceived_no_notif s req resp ok hc]
    exact ih (by omega)

/-- Concrete instance of `GetSignedInTwitchUser_pure`: on the fresh actor the
query changes nothing and returns the empty record. -/
theorem GetSignedInTwitchUser_pure_witness :
    (GetSignedInTwitchUser (initialActorState "client")).2 = initialActorState "client"
    ∧ (GetSignedInTwitchUser (initialActorState "client")).1 = ({} : FTwitchUser) := by
  have h := GetSignedInTwitchUser_pure (initialActorState "client") 0 (Reaches.init "client")
  exact ⟨h.1, h.2.2 rfl⟩
